import Mathlib

/-!
# Verification of the `cheat-code` sequence detector

A shallow embedding of `src/cheat-code.js`: the sequence-buffer state, the
timeout policy, the keyboard and gamepad symbol sources, the pattern
matcher, and the lifecycle (listen/destroy, confetti timer).  Timestamps
are modelled as `Int` milliseconds.  The JavaScript field
`this.lastEntryTime` can hold `undefined` (the method `buttonPressed`
assigns `this.now`, a property that is never initialised anywhere), so it
is modelled as `Option Int`: `none` stands for `undefined`, and the
comparison `Date.now() - undefined > timeLimit` evaluates to
`NaN > timeLimit`, i.e. `false`, which the `none` branch of `checkTime`
reproduces.
-/

/-- The component's per-instance state: the fields of the `CheatCode`
class that the detector logic reads and writes.

* `pattern`, `timeLimit` — configuration (`this.pattern`, `this.timeLimit`);
* `entries` — the Sequence Buffer (`this.entries`);
* `lastEntryTime` — `this.lastEntryTime`; `none` models the JavaScript
  `undefined` written by `buttonPressed` (`this.lastEntryTime = this.now`);
* `gamepads` — the keys of `this.gamepads` (`Object.keys` returns
  integer-like keys in ascending order, so a sorted duplicate-free list);
* `buttonState` — the keys of `this.buttonState` (only ever set to `true`,
  so membership in the list is the truthiness test `this.buttonState[i]`).
-/
structure CheatCodeState where
  pattern : String
  timeLimit : Int
  entries : List String
  lastEntryTime : Option Int
  gamepads : List Nat
  buttonState : List Nat
  deriving Repr, DecidableEq

/-- `static patternMatcher(pattern)`: the preset switch. -/
def patternMatcher (pattern : String) : String :=
  match pattern with
  | "starpower" => "7 1 7 0 7 2 7 3 6"
  | "konamicode" => "ArrowUp ArrowUp ArrowDown ArrowDown ArrowLeft ArrowRight ArrowLeft ArrowRight b a Enter"
  | _ => pattern

/-- `get currentCode()`: `this.entries.join(" ")`. -/
def currentCode (st : CheatCodeState) : String :=
  String.intercalate " " st.entries

/-- `checkTime()`: clear the buffer when more than `timeLimit` elapsed
since the last accepted entry.  When `lastEntryTime` is the JavaScript
`undefined` (`none`), `Date.now() - undefined` is `NaN` and
`NaN > timeLimit` is `false`, so nothing is cleared. -/
def checkTime (now : Int) (st : CheatCodeState) : CheatCodeState :=
  match st.lastEntryTime with
  | some t => if now - t > st.timeLimit then { st with entries := [] } else st
  | none => st

/-- `checkCode(event)`: destructure `event.key`; when truthy (present and
non-empty) push it, stamp the time, and compare the serialized buffer with
the pattern.  The returned `Bool` records whether `this.loadConfetti()`
was invoked (the reaction on a match). -/
def checkCode (key : Option String) (now : Int) (st : CheatCodeState) :
    CheatCodeState × Bool :=
  match key with
  | some k =>
    if k ≠ "" then
      let st1 := { st with entries := st.entries ++ [k], lastEntryTime := some now }
      (st1, currentCode st1 == st1.pattern)
    else (st, false)
  | none => (st, false)

/-- `keyboardInit(keyEvent)`: `this.checkTime(); this.checkCode(keyEvent);`. -/
def keyboardInit (key : Option String) (now : Int) (st : CheatCodeState) :
    CheatCodeState × Bool :=
  checkCode key now (checkTime now st)

/-- Feed a list of keydown notifications (key field, timestamp) through
`keyboardInit`, collecting for each event whether it fired the reaction. -/
def runKeyboard (evs : List (Option String × Int)) (st : CheatCodeState) :
    CheatCodeState × List Bool :=
  match evs with
  | [] => (st, [])
  | (k, t) :: rest =>
    let r1 := keyboardInit k t st
    let r2 := runKeyboard rest r1.1
    (r2.1, r1.2 :: r2.2)

/-- `buttonPressed(id)`: `checkTime`, push the button index (JavaScript
`join` stringifies it), then set `this.lastEntryTime = this.now` — but
`this.now` is not a property of the class, so the field becomes
`undefined` (`none`) — and compare against the pattern. -/
def buttonPressed (id : Nat) (now : Int) (st : CheatCodeState) :
    CheatCodeState × Bool :=
  let st1 := checkTime now st
  let st2 := { st1 with entries := st1.entries ++ [toString id], lastEntryTime := none }
  (st2, currentCode st2 == st2.pattern)

/-- The inner `buttons.forEach((button, index) => ...)` of
`readGamepadValues`: `idx` is the forEach position.  Note `buttonState`
is keyed by the button index alone — no device component.  The match
`Bool` that `buttonPressed` returns drives the external confetti effect
and is not needed by the gamepad claims, so only the state is threaded. -/
def buttonsLoop (now : Int) : List Bool → Nat → CheatCodeState →
    CheatCodeState × List Nat
  | [], _, st => (st, [])
  | pressed :: rest, idx, st =>
    if pressed then
      if st.buttonState.contains idx then
        buttonsLoop now rest (idx + 1) st
      else
        let st1 := { st with buttonState := idx :: st.buttonState }
        let st2 := (buttonPressed idx now st1).1
        let r := buttonsLoop now rest (idx + 1) st2
        (r.1, idx :: r.2)
    else
      buttonsLoop now rest (idx + 1) { st with buttonState := st.buttonState.erase idx }

/-- The outer `this.gamepadIndexes.forEach((item, index) => ...)` of
`readGamepadValues`.  `item` — a key of `this.gamepads`, a non-empty
string, always truthy, so `!item` never skips; `this.connectedGamepads`
(the `navigator.getGamepads()` snapshot, `snap`) is an array, always
truthy; `this.connectedGamepads[index]` indexes the snapshot by the
*position* of `item` in `gamepadIndexes` (`pos`), skipping when that slot
is absent or `null` (`none`). -/
def devicesLoop (snap : List (Option (List Bool))) (now : Int) :
    List Nat → Nat → CheatCodeState → CheatCodeState × List Nat
  | [], _, st => (st, [])
  | _item :: rest, pos, st =>
    match snap.getD pos none with
    | none => devicesLoop snap now rest (pos + 1) st
    | some buttons =>
      let r1 := buttonsLoop now buttons 0 st
      let r2 := devicesLoop snap now rest (pos + 1) r1.1
      (r2.1, r1.2 ++ r2.2)

/-- `readGamepadValues()`: one sampling pass over the snapshot, then
`if (this.gamepadIndexes.length > 0) requestAnimationFrame(...)` — the
returned `Bool` records whether the pass rescheduled itself. -/
def readGamepadValues (snap : List (Option (List Bool))) (now : Int)
    (st : CheatCodeState) : CheatCodeState × List Nat × Bool :=
  let r := devicesLoop snap now st.gamepads 0 st
  (r.1, r.2, decide (r.1.gamepads.length > 0))

/-- Insert a device index into the key list of `this.gamepads`
(`this.gamepads[gamepad.index] = true`): ascending, no duplicate, as
`Object.keys` enumerates integer-like keys. -/
def insertIndex (i : Nat) : List Nat → List Nat
  | [] => [i]
  | j :: rest =>
    if i < j then i :: j :: rest
    else if i = j then j :: rest
    else j :: insertIndex i rest

/-- `gamepadConnected(event)`: when `event.gamepad` is present, record its
index in `this.gamepads` and run a sampling pass (`readGamepadValues`). -/
def gamepadConnected (gp : Option Nat) (snap : List (Option (List Bool)))
    (now : Int) (st : CheatCodeState) : CheatCodeState × List Nat × Bool :=
  match gp with
  | none => (st, [], false)
  | some i =>
    let st1 := { st with gamepads := insertIndex i st.gamepads }
    readGamepadValues snap now st1

/-- `gamepadDisconnected(event)`: when `event.gamepad` is present,
`delete this.gamepads[gamepad.index]`.  Nothing else is touched — in
particular `this.buttonState` is left as it is. -/
def gamepadDisconnected (gp : Option Nat) (st : CheatCodeState) : CheatCodeState :=
  match gp with
  | none => st
  | some i => { st with gamepads := st.gamepads.erase i }

/-- Which handlers are currently registered with the ambient environment:
`keyboardInit` on `document` keydown, and the two gamepad handlers on
`window`. -/
structure Listeners where
  keydown : Bool
  gamepadconnected : Bool
  gamepaddisconnected : Bool
  deriving Repr, DecidableEq

/-- `listen()`: subscribe the adapter selected by `this.type`
(`"gamepad"` adds the two gamepad handlers; `"keyboard"` and any other
value add the keydown handler). -/
def listen (type : String) (l : Listeners) : Listeners :=
  match type with
  | "gamepad" => { l with gamepadconnected := true, gamepaddisconnected := true }
  | _ => { l with keydown := true }

/-- `destroy()`: unsubscribe the adapter selected by `this.type`.
`removeEventListener` of a handler that is not registered is a no-op, so
removal is plain flag clearing. -/
def destroy (type : String) (l : Listeners) : Listeners :=
  match type with
  | "gamepad" => { l with gamepadconnected := false, gamepaddisconnected := false }
  | _ => { l with keydown := false }

/-- The whole component as the ambient environment sees it: the detector
state, the registered listeners, and the confetti interval started by
`loadConfetti` (`this.timer`; `timerActive` is whether that interval is
still installed, `confettiDur` and `animationEnd` are the `duration` and
`animationEnd` captured by `loadConfetti` and passed to `fireConfetti`).
`this.timer` holds only the most recent interval id, which is the one this
model tracks. -/
structure SysState where
  type : String
  listeners : Listeners
  cc : CheatCodeState
  duration : Int
  timerActive : Bool
  confettiDur : Int
  animationEnd : Int
  deriving Repr, DecidableEq

/-- `loadConfetti()`: capture `duration = this.duration * 1000` and
`animationEnd = Date.now() + duration`, and install the 250ms interval
calling `fireConfetti(duration, animationEnd)`. -/
def loadConfetti (now : Int) (s : SysState) : SysState :=
  let d := s.duration * 1000
  { s with confettiDur := d, animationEnd := now + d, timerActive := true }

/-- `fireConfetti(duration, end)` as the interval fires it at time `now`:
when `timeLeft = end - now ≤ 0`, clear the interval and call
`this.destroy()` (which unsubscribes the input listeners).  The confetti
particles themselves are rendering, outside the detector's state. -/
def fireConfetti (now : Int) (s : SysState) : SysState :=
  if s.animationEnd - now ≤ 0 then
    { s with timerActive := false, listeners := destroy s.type s.listeners }
  else s

/-- One observable event delivered by the environment on the keyboard
path: a keydown notification, or one firing of the confetti interval. -/
inductive SysEvent where
  | keydown (key : Option String) (now : Int)
  | tick (now : Int)
  deriving Repr, DecidableEq

/-- Dispatch one event: a keydown reaches `keyboardInit` only while the
handler is registered, and a match runs `loadConfetti`; a tick reaches
`fireConfetti` only while the interval is installed.  The `Bool` records
whether this event fired the match reaction. -/
def sysStep (s : SysState) : SysEvent → SysState × Bool
  | .keydown key now =>
    if s.listeners.keydown then
      let r := keyboardInit key now s.cc
      let s1 := { s with cc := r.1 }
      if r.2 then (loadConfetti now s1, true) else (s1, false)
    else (s, false)
  | .tick now =>
    if s.timerActive then (fireConfetti now s, false) else (s, false)

/-- Run a list of events, counting how many fired the match reaction. -/
def runSys (s : SysState) : List SysEvent → SysState × Nat
  | [] => (s, 0)
  | e :: rest =>
    let r := sysStep s e
    let r2 := runSys r.1 rest
    (r2.1, (if r.2 then 1 else 0) + r2.2)

/-- Every consecutive gap inside a symbol sequence (key, timestamp) is at
most `T`, starting from timestamp `tprev`. -/
def gapsWithin (T : Int) : Int → List (String × Int) → Bool
  | _, [] => true
  | tprev, (_, t) :: rest => decide (t - tprev ≤ T) && gapsWithin T t rest

/-- Every inter-symbol gap of the sequence is at most `T` (no constraint
before its first symbol). -/
def innerGapsOK (T : Int) : List (String × Int) → Bool
  | [] => true
  | (_, t) :: rest => gapsWithin T t rest

/-- The match flags `checkCode` produces along a reset-free run: one flag
per symbol, comparing the serialization of the buffer so far (starting
from `acc`) with `pattern`. -/
def runFlags (pattern : String) (acc : List String) : List String → List Bool
  | [] => []
  | k :: rest =>
    (String.intercalate " " (acc ++ [k]) == pattern) :: runFlags pattern (acc ++ [k]) rest

/-! ## Helper lemmas -/

theorem intercalate_go_append (s acc b : String) (as : List String) :
    String.intercalate.go acc s (as ++ [b]) = String.intercalate.go acc s as ++ s ++ b := by
  induction as generalizing acc with
  | nil => rfl
  | cons a as ih =>
    show String.intercalate.go (acc ++ s ++ a) s (as ++ [b]) = _
    rw [ih]
    rfl

theorem intercalate_append_singleton (l : List String) (a : String) (h : l ≠ []) :
    String.intercalate " " (l ++ [a]) = String.intercalate " " l ++ " " ++ a := by
  match l with
  | [] => exact absurd rfl h
  | b :: bs =>
    show String.intercalate.go b " " (bs ++ [a]) = _
    rw [intercalate_go_append]
    rfl

theorem length_pos_of_ne_empty (s : String) (h : s ≠ "") : 0 < s.length := by
  cases s with
  | mk data =>
    cases data with
    | nil => exact absurd rfl h
    | cons c cs => simp [String.length]

theorem intercalate_length_lt (l : List String) (a : String) (ha : a ≠ "") :
    (String.intercalate " " l).length < (String.intercalate " " (l ++ [a])).length := by
  match l with
  | [] =>
    show ("" : String).length < a.length
    simpa using length_pos_of_ne_empty a ha
  | b :: bs =>
    rw [intercalate_append_singleton _ _ (by simp)]
    have := length_pos_of_ne_empty a ha
    simp [String.length_append]
    omega

/-- Appending a non-empty block of non-empty symbols strictly lengthens
the space-joined serialization: a strict prefix of the buffer can never
serialize to the same string as the whole buffer. -/
theorem intercalate_length_lt_append (l rest : List String) (h : rest ≠ [])
    (hne : ∀ k ∈ rest, k ≠ "") :
    (String.intercalate " " l).length < (String.intercalate " " (l ++ rest)).length := by
  induction rest generalizing l with
  | nil => exact absurd rfl h
  | cons a as ih =>
    have h1 : (String.intercalate " " l).length < (String.intercalate " " (l ++ [a])).length :=
      intercalate_length_lt l a (hne a (by simp))
    cases as with
    | nil => simpa using h1
    | cons b bs =>
      have h2 := ih (l ++ [a]) (by simp) (fun k hk => hne k (by simp [hk]))
      rw [List.append_assoc] at h2
      exact lt_trans h1 h2

/-- Along a reset-free run whose final buffer serializes to the pattern,
the per-symbol comparison is false at every proper prefix and true at the
last symbol. -/
theorem runFlags_eq (rest : List String) (acc : List String) (pattern : String)
    (hne : ∀ k ∈ rest, k ≠ "")
    (hfull : String.intercalate " " (acc ++ rest) = pattern)
    (hrest : rest ≠ []) :
    runFlags pattern acc rest = List.replicate (rest.length - 1) false ++ [true] := by
  induction rest generalizing acc with
  | nil => exact absurd rfl hrest
  | cons k tail ih =>
    cases tail with
    | nil => simp [runFlags, hfull]
    | cons b bs =>
      have hfull' : String.intercalate " " ((acc ++ [k]) ++ (b :: bs)) = pattern := by
        simpa [List.append_assoc] using hfull
      have hflag : String.intercalate " " (acc ++ [k]) ≠ pattern := by
        intro he
        have hlt := intercalate_length_lt_append (acc ++ [k]) (b :: bs) (by simp)
          (fun x hx => hne x (by simp [hx]))
        rw [hfull', he] at hlt
        exact lt_irrefl _ hlt
      rw [runFlags, ih (acc ++ [k]) (fun x hx => hne x (by simp [hx])) hfull' (by simp)]
      simp [hflag, List.replicate_succ]

/-- While every gap stays within the time limit, `keyboardInit` never
resets: the run's match flags are exactly `runFlags` over the keys. -/
theorem runKeyboard_no_reset (evs : List (String × Int)) (st : CheatCodeState) (tprev : Int)
    (hlast : st.lastEntryTime = some tprev)
    (hne : ∀ p ∈ evs, p.1 ≠ "")
    (hgaps : gapsWithin st.timeLimit tprev evs = true) :
    (runKeyboard (evs.map fun p => (some p.1, p.2)) st).2
      = runFlags st.pattern st.entries (evs.map Prod.fst) := by
  induction evs generalizing st tprev with
  | nil => simp [runKeyboard, runFlags]
  | cons e rest ih =>
    obtain ⟨k, t⟩ := e
    simp only [gapsWithin, Bool.and_eq_true, decide_eq_true_eq] at hgaps
    obtain ⟨hg, hgs⟩ := hgaps
    have hcond : ¬ (t - tprev > st.timeLimit) := by omega
    have hct : checkTime t st = st := by
      simp only [checkTime, hlast, if_neg hcond]
    have hk : k ≠ "" := hne (k, t) (by simp)
    simp only [List.map_cons, runKeyboard, keyboardInit, hct, checkCode, if_pos hk]
    rw [ih _ t rfl (fun p hp => hne p (by simp [hp])) (by simpa using hgs)]
    simp [runFlags, currentCode]

theorem checkTime_lastEntryTime (now : Int) (st : CheatCodeState) :
    (checkTime now st).lastEntryTime = st.lastEntryTime := by
  obtain ⟨p, T, e, l, g, b⟩ := st
  cases l with
  | none => rfl
  | some t =>
    simp only [checkTime]
    split <;> rfl

theorem checkTime_gamepads (now : Int) (st : CheatCodeState) :
    (checkTime now st).gamepads = st.gamepads := by
  obtain ⟨p, T, e, l, g, b⟩ := st
  cases l with
  | none => rfl
  | some t =>
    simp only [checkTime]
    split <;> rfl

theorem buttonPressed_gamepads (id : Nat) (now : Int) (st : CheatCodeState) :
    (buttonPressed id now st).1.gamepads = st.gamepads := by
  simp only [buttonPressed]
  exact checkTime_gamepads now st

/-- A sampling pass never touches the Connected Devices Set. -/
theorem buttonsLoop_gamepads (now : Int) (bs : List Bool) (idx : Nat) (st : CheatCodeState) :
    (buttonsLoop now bs idx st).1.gamepads = st.gamepads := by
  induction bs generalizing idx st with
  | nil => rfl
  | cons pressed rest ih =>
    simp only [buttonsLoop]
    split
    · split
      · exact ih _ _
      · rw [ih]
        rw [buttonPressed_gamepads]
    · exact ih _ _

theorem devicesLoop_gamepads (snap : List (Option (List Bool))) (now : Int)
    (items : List Nat) (pos : Nat) (st : CheatCodeState) :
    (devicesLoop snap now items pos st).1.gamepads = st.gamepads := by
  induction items generalizing pos st with
  | nil => rfl
  | cons item rest ih =>
    simp only [devicesLoop]
    split
    · exact ih _ _
    · rw [ih, buttonsLoop_gamepads]

theorem insertIndex_ne_nil (i : Nat) (l : List Nat) : insertIndex i l ≠ [] := by
  cases l with
  | nil => simp [insertIndex]
  | cons j rest =>
    simp only [insertIndex]
    split
    · simp
    · split <;> simp

/-! ## The claims -/

/-- C1: for every symbol sequence `S` and configured time limit, if the
symbols of `S` are accepted starting from an empty buffer with every
inter-symbol gap at most `timeLimit` and the space-joined serialization
of `S` equals the configured pattern, then the detector reports a match
exactly once, immediately on accepting the last symbol of `S`: the flag
produced by each accepting event is `false` for every symbol but the
last, and `true` there. -/
theorem C1_keyboard_match_fires_once_at_last_symbol
    (S : List (String × Int)) (st0 : CheatCodeState) (t0 : Int)
    (hentries : st0.entries = [])
    (hlast : st0.lastEntryTime = some t0)
    (hS : S ≠ [])
    (hkeys : ∀ p ∈ S, p.1 ≠ "")
    (hgaps : innerGapsOK st0.timeLimit S = true)
    (hpat : String.intercalate " " (S.map Prod.fst) = st0.pattern) :
    (runKeyboard (S.map fun p => (some p.1, p.2)) st0).2
      = List.replicate (S.length - 1) false ++ [true] := by
  match S, hS with
  | (k1, t1) :: rest, _ =>
    have hct : checkTime t1 st0 = st0 := by
      simp only [checkTime, hlast]
      split
      · cases st0
        simp_all
      · rfl
    have hk1 : k1 ≠ "" := hkeys (k1, t1) (by simp)
    have hrun := runKeyboard_no_reset rest
      ({ st0 with entries := st0.entries ++ [k1], lastEntryTime := some t1 }) t1 rfl
      (fun p hp => hkeys p (by simp [hp])) (by simpa [innerGapsOK] using hgaps)
    simp only [List.map_cons, runKeyboard, keyboardInit, hct, checkCode, if_pos hk1]
    rw [hrun]
    have hmem : ∀ x ∈ k1 :: rest.map Prod.fst, x ≠ "" := by
      intro x hx
      rcases List.mem_cons.mp hx with rfl | hx
      · exact hk1
      · obtain ⟨p, hp, rfl⟩ := List.mem_map.mp hx
        exact hkeys p (List.mem_cons_of_mem _ hp)
    have hfl := runFlags_eq (k1 :: rest.map Prod.fst) [] st0.pattern hmem
      (by simpa using hpat) (by simp)
    simp only [runFlags, List.nil_append] at hfl
    simp only [hentries, List.nil_append, currentCode]
    simpa using hfl

/-- C1 witness: the pattern "ArrowUp b" entered as two keydown events
100ms apart matches exactly at the second event. -/
theorem C1_keyboard_match_witness :
    (runKeyboard [(some "ArrowUp", 100), (some "b", 200)]
      ⟨"ArrowUp b", 1000, [], some 0, [], []⟩).2 = [false, true] := by
  have h := C1_keyboard_match_fires_once_at_last_symbol
    [("ArrowUp", 100), ("b", 200)] ⟨"ArrowUp b", 1000, [], some 0, [], []⟩ 0
    rfl rfl (by decide) (by decide) (by decide) (by decide)
  simpa using h

/-- C2: the code violates the buffer-gap invariant on the gamepad path.
`buttonPressed` assigns `this.lastEntryTime = this.now`, and `this.now`
is never initialised, so the field becomes `undefined` (`none`); the next
`checkTime` compares `NaN > timeLimit`, which is false, and never clears.
Concretely: with `timeLimit = 1000`, button 7 accepted at t = 100 and
button 1 at t = 5000 (gap 4900 > 1000) both stay in the buffer. -/
theorem C2_gamepad_gap_retained_bug :
    ((buttonPressed 1 5000 (buttonPressed 7 100
        ⟨"7 1 7 0 7 2 7 3 6", 1000, [], some 0, [0], []⟩).1).1).entries = ["7", "1"] ∧
    (buttonPressed 7 100
        ⟨"7 1 7 0 7 2 7 3 6", 1000, [], some 0, [0], []⟩).1.lastEntryTime = none := by
  exact ⟨rfl, rfl⟩

/-- C3 counterexample: the detector does NOT keep listening after a match.
Pattern "a", timeLimit 1000, duration 10: the keydown at t = 100 matches
(count 1) and starts the confetti interval; the interval tick at
t = 10100 reaches `animationEnd`, and `fireConfetti` calls `destroy()`,
removing the keydown handler — the pattern re-entered at t = 12000 is
never seen, and the final state is no longer listening. -/
theorem C3_keeps_listening_counterexample :
    (runSys ⟨"keyboard", ⟨true, false, false⟩, ⟨"a", 1000, [], some 0, [], []⟩, 10, false, 0, 0⟩
      [SysEvent.keydown (some "a") 100, SysEvent.tick 10100,
       SysEvent.keydown (some "a") 12000]).2 = 1 ∧
    (runSys ⟨"keyboard", ⟨true, false, false⟩, ⟨"a", 1000, [], some 0, [], []⟩, 10, false, 0, 0⟩
      [SysEvent.keydown (some "a") 100, SysEvent.tick 10100,
       SysEvent.keydown (some "a") 12000]).1.listeners.keydown = false := by
  exact ⟨rfl, rfl⟩

/-- C3 (amended): processing a keydown — match included — leaves the
subscriptions untouched, and a match arms the confetti interval with
`animationEnd = now + duration * 1000`; but the first interval tick at or
after `animationEnd` clears the interval and calls `destroy()`,
unsubscribing the active adapter, so the detector auto-stops
`duration` seconds after a match. -/
theorem C3_auto_stop_after_effect (s : SysState) (key : Option String) (now t : Int) :
    (sysStep s (SysEvent.keydown key now)).1.listeners = s.listeners ∧
    ((sysStep s (SysEvent.keydown key now)).2 = true →
      (sysStep s (SysEvent.keydown key now)).1.timerActive = true ∧
      (sysStep s (SysEvent.keydown key now)).1.animationEnd = now + s.duration * 1000) ∧
    (s.timerActive = true → s.animationEnd - t ≤ 0 →
      (sysStep s (SysEvent.tick t)).1.listeners = destroy s.type s.listeners ∧
      (sysStep s (SysEvent.tick t)).1.timerActive = false) := by
  refine ⟨?_, ?_, ?_⟩
  · simp only [sysStep]
    split
    · split <;> simp [loadConfetti]
    · rfl
  · simp only [sysStep]
    split
    · split
      · intro _
        simp [loadConfetti]
      · intro h
        simp at h
    · intro h
      simp at h
  · intro hta hle
    simp only [sysStep, hta]
    simp [fireConfetti, hle]

/-- C3 witness: at the concrete state where the confetti window has just
elapsed, the tick removes the keydown subscription and the interval. -/
theorem C3_auto_stop_witness :
    (sysStep ⟨"keyboard", ⟨true, false, false⟩, ⟨"a", 1000, ["a"], some 100, [], []⟩,
        10, true, 10000, 10100⟩ (SysEvent.tick 10100)).1.listeners
      = ⟨false, false, false⟩ ∧
    (sysStep ⟨"keyboard", ⟨true, false, false⟩, ⟨"a", 1000, ["a"], some 100, [], []⟩,
        10, true, 10000, 10100⟩ (SysEvent.tick 10100)).1.timerActive = false := by
  have h := (C3_auto_stop_after_effect ⟨"keyboard", ⟨true, false, false⟩,
      ⟨"a", 1000, ["a"], some 100, [], []⟩, 10, true, 10000, 10100⟩ none 0 10100).2.2
    rfl (by decide)
  exact ⟨h.1, h.2⟩

/-- C4: the code violates per-device edge tracking. `this.buttonState` is
keyed by button index alone, so with devices 0 and 1 connected, device 0
holding button 3 while device 1 leaves it unpressed emits the symbol on
BOTH sampling passes: device 1's unpressed button 3 deletes the held flag
device 0 just set, and the next pass re-fires — not one symbol per
press-and-hold, and the second device's state suppresses/retriggers the
first's. -/
theorem C4_shared_button_state_bug :
    (readGamepadValues [some [false, false, false, true], some [false, false, false, false]] 0
      ⟨"x", 1000, [], some 0, [0, 1], []⟩).2.1 = [3] ∧
    (readGamepadValues [some [false, false, false, true], some [false, false, false, false]] 16
      (readGamepadValues [some [false, false, false, true], some [false, false, false, false]] 0
        ⟨"x", 1000, [], some 0, [0, 1], []⟩).1).2.1 = [3] := by
  exact ⟨rfl, rfl⟩

/-- C5: preset resolution is total: "starpower" and "konamicode" resolve
to their fixed pattern strings, and every other string passes through
unchanged, with no error. -/
theorem C5_patternMatcher_total (s : String) :
    patternMatcher "starpower" = "7 1 7 0 7 2 7 3 6" ∧
    patternMatcher "konamicode" = "ArrowUp ArrowUp ArrowDown ArrowDown ArrowLeft ArrowRight ArrowLeft ArrowRight b a Enter" ∧
    (s ≠ "starpower" → s ≠ "konamicode" → patternMatcher s = s) := by
  refine ⟨rfl, rfl, fun h1 h2 => ?_⟩
  simp [patternMatcher, h1, h2]

/-- C5 witness: an unrecognized preset name passes through unchanged. -/
theorem C5_patternMatcher_witness :
    patternMatcher "unknown-xyz" = "unknown-xyz" :=
  (C5_patternMatcher_total "unknown-xyz").2.2 (by decide) (by decide)

/-- C6: a sampling pass reschedules itself if and only if the Connected
Devices Set is non-empty (the pass never changes that set), and a
device-connection notification always runs a pass that reschedules —
polling resumes on the next connection. -/
theorem C6_reschedule_iff_devices_connected
    (snap : List (Option (List Bool))) (now : Int) (st : CheatCodeState) (i : Nat) :
    (((readGamepadValues snap now st).2.2 = true) ↔ st.gamepads ≠ []) ∧
    (gamepadConnected (some i) snap now st).2.2 = true := by
  constructor
  · simp only [readGamepadValues, devicesLoop_gamepads, decide_eq_true_eq]
    exact ⟨fun h => List.ne_nil_of_length_pos h, fun h => List.length_pos.mpr h⟩
  · simp only [gamepadConnected, readGamepadValues, devicesLoop_gamepads, decide_eq_true_eq]
    exact List.length_pos.mpr (insertIndex_ne_nil i st.gamepads)

/-- C7 counterexample: disconnection does NOT discard the device's edge
state. With device 0 the only connected device and its button 3 flagged
held, `gamepadDisconnected` removes index 0 from the set but leaves the
held flag in `buttonState`. -/
theorem C7_edge_state_kept_counterexample :
    (gamepadDisconnected (some 0) ⟨"x", 1000, [], some 0, [0], [3]⟩).buttonState = [3] ∧
    (gamepadDisconnected (some 0) ⟨"x", 1000, [], some 0, [0], [3]⟩).gamepads = [] := by
  exact ⟨rfl, rfl⟩

/-- C7 (amended): a disconnection notification removes the device's index
from the Connected Devices Set and changes nothing else — in particular
the edge-state map is kept as it is, so stale held-button flags survive a
reconnection; a notification without a gamepad is a no-op. -/
theorem C7_disconnect_removes_only_index (i : Nat) (st : CheatCodeState) :
    gamepadDisconnected (some i) st = { st with gamepads := st.gamepads.erase i } ∧
    gamepadDisconnected none st = st := by
  exact ⟨rfl, rfl⟩

/-- C8: `destroy()` is idempotent — running it twice equals running it
once — and from the never-started / already-stopped state (no handler
registered) it is a no-op, for every configured type. -/
theorem C8_destroy_idempotent_and_idle_safe (ty : String) (l : Listeners) :
    destroy ty (destroy ty l) = destroy ty l ∧
    destroy ty ⟨false, false, false⟩ = ⟨false, false, false⟩ := by
  by_cases hty : ty = "gamepad" <;> simp [destroy, hty]

/-- C9: a keydown notification whose `key` is absent (`none`) or falsy
(`""`) is silently ignored by `checkCode`: the state is returned
untouched and no match is reported; through `keyboardInit` the only
effect is `checkTime`'s, which never changes the last-entry timestamp. -/
theorem C9_falsy_key_ignored (key : Option String) (now : Int) (st : CheatCodeState)
    (hfalsy : key = none ∨ key = some "") :
    checkCode key now st = (st, false) ∧
    keyboardInit key now st = (checkTime now st, false) ∧
    (checkTime now st).lastEntryTime = st.lastEntryTime := by
  have hcc : ∀ st' : CheatCodeState, checkCode key now st' = (st', false) := by
    rcases hfalsy with rfl | rfl <;> intro st' <;> simp [checkCode]
  exact ⟨hcc st, by simp only [keyboardInit, hcc], checkTime_lastEntryTime now st⟩

/-- C9 witness: a keydown without a key leaves a concrete state
untouched and reports no match. -/
theorem C9_falsy_key_witness :
    checkCode none 500 ⟨"a", 1000, ["x"], some 0, [], []⟩
      = (⟨"a", 1000, ["x"], some 0, [], []⟩, false) :=
  (C9_falsy_key_ignored none 500 ⟨"a", 1000, ["x"], some 0, [], []⟩ (Or.inl rfl)).1

/-- C10: a keydown with a falsy `key` still runs the timeout check first:
when more than `timeLimit` elapsed since the last accepted symbol the
buffer is cleared even though no symbol is emitted, and otherwise the
state is left completely unchanged; either way no match is reported. -/
theorem C10_falsy_key_timeout_frame (key : Option String) (now t : Int) (st : CheatCodeState)
    (hfalsy : key = none ∨ key = some "")
    (hlast : st.lastEntryTime = some t) :
    (now - t > st.timeLimit → (keyboardInit key now st).1 = { st with entries := [] }) ∧
    (¬ now - t > st.timeLimit → (keyboardInit key now st).1 = st) ∧
    (keyboardInit key now st).2 = false := by
  have hcc : ∀ st' : CheatCodeState, checkCode key now st' = (st', false) := by
    rcases hfalsy with rfl | rfl <;> intro st' <;> simp [checkCode]
  simp only [keyboardInit, hcc, checkTime, hlast]
  refine ⟨fun h => ?_, fun h => ?_, ?_⟩
  · rw [if_pos h]
  · rw [if_neg h]
  · trivial

/-- C10 witness: a keyless keydown arriving 5000ms after the last entry
(timeLimit 1000) clears a concrete non-empty buffer. -/
theorem C10_falsy_timeout_witness :
    (keyboardInit none 5000 ⟨"a", 1000, ["x"], some 0, [], []⟩).1
      = ⟨"a", 1000, [], some 0, [], []⟩ :=
  (C10_falsy_key_timeout_frame none 5000 0 ⟨"a", 1000, ["x"], some 0, [], []⟩
    (Or.inl rfl) rfl).1 (by decide)
